/-
Verification of the libbitcoin-node header-sync core against its
natural-language specification.

Shallow embedding of:
  * the header slot table (`header_list`, modelled from the spec: its
    implementation file is not part of the sources here, only its callers),
  * `protocol_header_sync` (src/src/protocols/protocol_header_sync.cpp),
  * `session` dispatch handlers (src/src/session.cpp).

Machine integers (`size_t`, `uint32_t`) are modelled as `Nat` with explicit
reduction modulo 2^64 (resp. 2^32) exactly where the C++ arithmetic can wrap.
-/
import Mathlib

namespace LibbitcoinNode

/-- Width of `size_t`: all size arithmetic in the sources is on 64-bit
unsigned integers. -/
def w64 : Nat := 2 ^ 64

/-- Width of `uint32_t` (start height pushed to the handshake layer). -/
def w32 : Nat := 2 ^ 32

/-- Wrapping subtraction on `size_t`: `a - b` as C++ computes it on
unsigned 64-bit operands. -/
def sub64 (a b : Nat) : Nat := (a % w64 + (w64 - b % w64)) % w64

/-- A hash value (32 bytes on the wire); abstract here. -/
abbrev Hash := Nat

/-- A block header.  Only linkage matters to the core: `previous` is the
32-byte previous-block hash stored in the header, `self` is the hash of the
header itself (`hash_block_header` in the source). -/
structure Header where
  previous : Hash
  self : Hash
deriving DecidableEq, Repr

/-- Error codes used by the header-sync core (`std::error_code` values of
the `error` enumeration that these sources mention). -/
inductive Code where
  | success
  | channel_stopped
  | channel_timeout
  | invalid_previous_block
  | operation_failed
  | service_stopped
  | send_failed
deriving DecidableEq, Repr

/-- `max_get_headers`: the protocol constant 2000, the largest number of
headers a peer may put in one `headers` message. -/
def max_get_headers : Nat := 2000

/-- Modelled from the spec: the header slot table (`header_list`), whose
implementation file is absent from the sources.  Per spec §3 it carries the
three immutable anchors, a fixed capacity `stop_height − first_height`, and
the contiguously appended `slots`. -/
structure HeaderList where
  first_height : Nat
  first_hash : Hash
  stop_hash : Hash
  capacity : Nat
  slots : List Header
deriving DecidableEq, Repr

namespace HeaderList

/-- Modelled from the spec: `previous_height()` is
`first_height + len(slots) − 1`, or `first_height − 1` if empty, computed
on `size_t` (so it wraps when `first_height = 0` and `slots` is empty). -/
def previous_height (t : HeaderList) : Nat :=
  sub64 (t.first_height + t.slots.length) 1

/-- Modelled from the spec: `previous_hash()` is the hash-of-self of the
last stored header, or `first_hash` if empty. -/
def previous_hash (t : HeaderList) : Hash :=
  match t.slots.getLast? with
  | some h => h.self
  | none => t.first_hash

/-- Modelled from the spec: `complete()` is true when the last stored
header's hash equals `stop_hash`. -/
def complete (t : HeaderList) : Bool :=
  match t.slots.getLast? with
  | some h => h.self == t.stop_hash
  | none => false

/-- Modelled from the spec: the merge loop.  Walks the batch appending each
header that links to the running previous hash; fails (`none`) when a header
does not link or the append would overflow the remaining `room`; stops
accepting (successfully) once the stop hash has been appended, ignoring the
rest of the batch. -/
def mergeLoop (slots : List Header) (prev : Hash) (room : Nat) (stop : Hash) :
    List Header → Option (List Header)
  | [] => some slots
  | h :: rest =>
    if h.previous = prev then
      if room = 0 then
        none
      else if h.self = stop then
        some (slots ++ [h])
      else
        mergeLoop (slots ++ [h]) h.self (room - 1) stop rest
    else
      none

/-- Modelled from the spec: `merge(batch)` attempts to append the batch to
the slot table; on any failure it returns `false` with the table unchanged
(spec §4.1), on success it returns `true` with every linking header (up to
the stop hash) appended. -/
def merge (t : HeaderList) (batch : List Header) : Bool × HeaderList :=
  match mergeLoop t.slots t.previous_hash (t.capacity - t.slots.length)
      t.stop_hash batch with
  | some s => (true, { t with slots := s })
  | none => (false, t)

end HeaderList

/-! ## protocol_header_sync (src/src/protocols/protocol_header_sync.cpp) -/

/-- The mutable state of one `protocol_header_sync` instance: the shared
header list, the elapsed-seconds counter `current_second_`, the configured
`minimum_rate_`, the `start_size_` captured at construction, and the
`stopped()` predicate of the base protocol / channel. -/
structure ProtoState where
  headers : HeaderList
  current_second : Nat
  minimum_rate : Nat
  start_size : Nat
  stopped : Bool
deriving DecidableEq, Repr

/-- The constructor: `start_size_` is
`headers->previous_height() - headers->first_height()` on `size_t`,
`current_second_` starts at zero. -/
def protocol_init (hl : HeaderList) (minimum_rate : Nat) (stopped : Bool) :
    ProtoState :=
  { headers := hl
    current_second := 0
    minimum_rate := minimum_rate
    start_size := sub64 hl.previous_height hl.first_height
    stopped := stopped }

/-- One expiry period elapses: `current_second_ += 5` on `size_t`
(the source notes the overflow as acceptable). -/
def tick (s : ProtoState) : ProtoState :=
  { s with current_second := (s.current_second + 5) % w64 }

/-- The rate computed by `handle_event`:
`(headers_->previous_height() - start_size_) / current_second_` on
`size_t`. -/
def rate (s : ProtoState) : Nat :=
  sub64 s.headers.previous_height s.start_size / s.current_second

/-- `protocol_header_sync::handle_event`, fired by the base timer and stop
handler.  Returns the updated state and the code passed to the one-shot
`complete` callback, if any.  Note: the source has no `stopped()` check
here. -/
def handle_event (ec : Code) (s : ProtoState) : ProtoState × Option Code :=
  if ec = Code.channel_stopped then
    (s, some ec)
  else if ec ≠ Code.success ∧ ec ≠ Code.channel_timeout then
    (s, some ec)
  else
    let s' := tick s
    if rate s' < s.minimum_rate then
      (s', some Code.channel_timeout)
    else
      (s', none)

/-- The outcome of `protocol_header_sync::handle_receive_headers`: its
boolean return (the re-subscription signal), the code passed to the
one-shot `complete` callback if any, whether a follow-up `get_headers`
request was sent, and the resulting header table. -/
structure RecvOut where
  resubscribe : Bool
  completed : Option Code
  sent_get_headers : Bool
  table : HeaderList
deriving DecidableEq, Repr

/-- `protocol_header_sync::handle_receive_headers`: gate on `stopped()`,
forward a transport error, merge the batch (failure completes with
`invalid_previous_block`), then complete with `success` when the table is
complete, with `operation_failed` when the batch is short of
`max_get_headers`, and otherwise re-send `get_headers` and keep the
subscription. -/
def handle_receive_headers (stopped : Bool) (ec : Code) (msg : List Header)
    (t : HeaderList) : RecvOut :=
  if stopped then
    ⟨false, none, false, t⟩
  else if ec ≠ Code.success then
    ⟨false, some ec, false, t⟩
  else
    let r := t.merge msg
    if r.1 = false then
      ⟨false, some Code.invalid_previous_block, false, r.2⟩
    else if r.2.complete then
      ⟨false, some Code.success, false, r.2⟩
    else if msg.length < max_get_headers then
      ⟨false, some Code.operation_failed, false, r.2⟩
    else
      ⟨true, none, true, r.2⟩

/-! ## The one-shot completion synchronizer and `headers_complete` -/

/-- Modelled from the spec: the state of the one-shot completion barrier
(`synchronize<event_handler>(..., 1, NAME)`, whose implementation is not
among these sources): has it fired yet. -/
structure Barrier where
  fired : Bool
deriving DecidableEq, Repr

/-- Modelled from the spec: firing the barrier forwards the first code and
discards every later one. -/
def Barrier.fire (b : Barrier) (c : Code) : Barrier × Option Code :=
  if b.fired then (b, none) else (⟨true⟩, some c)

/-- The codes forwarded by the barrier over a sequence of completion
attempts, in order. -/
def forwardAll (b : Barrier) : List Code → List Code
  | [] => []
  | c :: rest =>
    match b.fire c with
    | (b', some c') => c' :: forwardAll b' rest
    | (b', none) => forwardAll b' rest

/-- A user-visible action of the completion path. -/
inductive HAction where
  | invokeHandler (c : Code)
  | stopChannel (c : Code)
deriving DecidableEq, Repr

/-- `protocol_header_sync::headers_complete`: invoke the user's handler
with the forwarded code, then request the channel stop with
`channel_stopped`. -/
def headers_complete (c : Code) : List HAction :=
  [HAction.invokeHandler c, HAction.stopChannel Code.channel_stopped]

/-- The user-visible actions produced by a whole run: every code the
barrier forwards goes through `headers_complete`. -/
def protocolCompletions (events : List Code) : List HAction :=
  List.flatten ((forwardAll ⟨false⟩ events).map headers_complete)

/-! ## session (src/src/session.cpp) -/

/-- Inventory vector type identifiers used by the session. -/
inductive InvType where
  | block
  | transaction
deriving DecidableEq, Repr

/-- An observable action of a session handler, in the order the handler
performs it. -/
inductive SessAction where
  | setStartHeight (height : Nat)
  | subscribeReorganize
  | broadcast (inventories : List (InvType × Hash))
  | subscribeInventory
  | subscribeGetBlocks
  | subscribeChannel
  | pollQuery
  | pollMonitor
deriving DecidableEq, Repr

/-- `session::set_start_height`, the reorganization handler: on error it
only returns (asserting `service_stopped`); otherwise it pushes
`fork_point + new_blocks.size()` (truncated to `uint32_t`) to the
handshake layer, re-subscribes for reorganizations, and broadcasts one
inventory message with a block-type vector per new block's header hash, in
order — even when `new_blocks` is empty. -/
def set_start_height (ec : Code) (fork_point : Nat)
    (new_blocks : List Header) : List SessAction :=
  if ec ≠ Code.success then
    []
  else
    [SessAction.setStartHeight ((fork_point + new_blocks.length) % w32),
     SessAction.subscribeReorganize,
     SessAction.broadcast (new_blocks.map fun b => (InvType.block, b.self))]

/-- `session::new_channel`: on error it logs and returns (no subscriptions,
no re-subscription); on success it subscribes the channel's inventory and
get-blocks streams, re-subscribes for new channels, and hands the channel
to the poller. -/
def new_channel (ec : Code) : List SessAction :=
  if ec ≠ Code.success then
    []
  else
    [SessAction.subscribeInventory,
     SessAction.subscribeGetBlocks,
     SessAction.subscribeChannel,
     SessAction.pollQuery,
     SessAction.pollMonitor]

/-- The new-channel subscription chain: `subscribe_channel` is single-shot,
so a notification is handled only while a subscription is outstanding, and
the next one is handled only if handling this one re-subscribed
(`SessAction.subscribeChannel` among the handler's actions).  Returns the
prefix of notifications that the session actually handles. -/
def handledChannelEvents : List Code → List Code
  | [] => []
  | e :: rest =>
    e :: (if SessAction.subscribeChannel ∈ new_channel e then
      handledChannelEvents rest
    else
      [])

/-- `session::request_tx_data`: nothing when the mempool already has the
transaction, otherwise a `get_data` message with exactly one
transaction-type vector carrying the hash. -/
def request_tx_data (tx_exists : Bool) (tx_hash : Hash) :
    Option (List (InvType × Hash)) :=
  if tx_exists then
    none
  else
    some [(InvType.transaction, tx_hash)]

/-- The outcome of one `new_tx_inventory` task: which hash was queried
against the mempool, and the `get_data` message sent on the channel, if
any. -/
structure TxInvOut where
  queried : Hash
  sent : Option (List (InvType × Hash))
deriving DecidableEq, Repr

/-- `session::new_tx_inventory`: query `tx_pool_.exists(tx_hash)` and let
`request_tx_data` act on the answer. -/
def new_tx_inventory (mempool_has : Bool) (tx_hash : Hash) : TxInvOut :=
  ⟨tx_hash, request_tx_data mempool_has tx_hash⟩

/-! ## Arithmetic helpers -/

theorem sub64_lt (a b : Nat) : sub64 a b < w64 := by
  unfold sub64 w64
  exact Nat.mod_lt _ (by norm_num)

theorem sub64_cancel (a b : Nat) (ha : a < w64) (hb : b < w64) :
    sub64 a (sub64 a b) = b := by
  simp only [sub64, w64] at *
  norm_num at *
  omega

/-- `handle_event` on a normal `channel_timeout` tick: advance the elapsed
counter and complete with `channel_timeout` exactly when the computed rate
is below the minimum. -/
theorem handle_event_timeout_eq (s : ProtoState) :
    handle_event Code.channel_timeout s = (tick s,
      if rate (tick s) < s.minimum_rate then some Code.channel_timeout
      else none) := by
  by_cases h : rate (tick s) < s.minimum_rate <;> simp [handle_event, h]

/-! ## Claim theorems -/

/-- C1 (amended): a normal `channel_timeout` tick taken while running adds
the 5-second interval to `current_second_` and computes the rate as
`((previous_height() − start_size_) mod 2^64) / elapsed`; with zero headers
delivered since construction this numerator collapses to `first_height()`,
so after one interval the rate is `first_height() / 5` — not 0 in general —
and the tick completes with `channel_timeout` exactly when
`first_height() / 5 < minimum_rate`. -/
theorem rate_tick_first_height (hl : HeaderList) (r : Nat)
    (hfirst : hl.first_height < w64) :
    (handle_event Code.channel_timeout (protocol_init hl r false)).1.current_second = 5 ∧
    rate (tick (protocol_init hl r false)) = hl.first_height / 5 ∧
    ((handle_event Code.channel_timeout (protocol_init hl r false)).2
      = some Code.channel_timeout ↔ hl.first_height / 5 < r) := by
  have hnum : sub64 hl.previous_height (sub64 hl.previous_height hl.first_height)
      = hl.first_height :=
    sub64_cancel _ _ (sub64_lt _ _) hfirst
  have h5 : (0 + 5) % w64 = 5 := by norm_num [w64]
  have hrate : rate (tick (protocol_init hl r false)) = hl.first_height / 5 := by
    simp [rate, tick, protocol_init, h5, hnum]
  rw [handle_event_timeout_eq]
  refine ⟨?_, hrate, ?_⟩
  · show (tick (protocol_init hl r false)).current_second = 5
    simp [tick, protocol_init, h5]
  · have hmr : (protocol_init hl r false).minimum_rate = r := rfl
    by_cases hlt : hl.first_height / 5 < r <;> simp [hrate, hmr, hlt]

/-- C1 (counterexample): with `first_height = 100`, zero headers delivered
since construction and `minimum_rate = 10 > 0`, one tick computes rate 20,
not 0, and does not complete with `channel_timeout`. -/
theorem rate_tick_counterexample :
    rate (tick (protocol_init ⟨100, 7, 99, 3, []⟩ 10 false)) = 20 ∧
    (handle_event Code.channel_timeout (protocol_init ⟨100, 7, 99, 3, []⟩ 10 false)).2
      = none := by
  constructor
  · decide
  · decide

/-- C1 (witness): at `first_height = 0` the amended statement instantiates
to the spec's scenario — rate 0 after one tick, timing out against
`minimum_rate = 10`. -/
theorem rate_tick_first_height_witness :
    (handle_event Code.channel_timeout
        (protocol_init ⟨0, 7, 99, 3, []⟩ 10 false)).1.current_second = 5 ∧
    rate (tick (protocol_init ⟨0, 7, 99, 3, []⟩ 10 false)) = (0 : Nat) / 5 ∧
    ((handle_event Code.channel_timeout (protocol_init ⟨0, 7, 99, 3, []⟩ 10 false)).2
      = some Code.channel_timeout ↔ (0 : Nat) / 5 < 10) :=
  rate_tick_first_height ⟨0, 7, 99, 3, []⟩ 10 (by norm_num [w64])

/-- C2: a merge that returns false leaves the slot table unchanged — the
failed batch appends nothing. -/
theorem merge_false_unchanged (t : HeaderList) (b : List Header)
    (h : (t.merge b).1 = false) : (t.merge b).2 = t := by
  unfold HeaderList.merge at *
  cases hm : HeaderList.mergeLoop t.slots t.previous_hash
      (t.capacity - t.slots.length) t.stop_hash b with
  | some s => rw [hm] at h; simp at h
  | none => rfl

/-- C2 (witness): a batch whose first header does not link to the anchor is
rejected with the table unchanged. -/
theorem merge_false_unchanged_witness :
    ((⟨0, 7, 99, 3, []⟩ : HeaderList).merge [⟨5, 6⟩]).1 = false ∧
    ((⟨0, 7, 99, 3, []⟩ : HeaderList).merge [⟨5, 6⟩]).2 = ⟨0, 7, 99, 3, []⟩ :=
  ⟨by decide, merge_false_unchanged ⟨0, 7, 99, 3, []⟩ [⟨5, 6⟩] (by decide)⟩

/-- Once the one-shot barrier has fired it forwards nothing further. -/
theorem forwardAll_fired (es : List Code) : forwardAll ⟨true⟩ es = [] := by
  induction es with
  | nil => rfl
  | cons c rest ih => simp [forwardAll, Barrier.fire, ih]

/-- C3: over any run whose completion producers race with first outcome `c`,
the user's handler is invoked exactly once, with `c`, and the handler
invocation is followed by a channel-stop request with `channel_stopped`;
every later completion attempt is discarded. -/
theorem completion_handler_once (c : Code) (rest : List Code) :
    protocolCompletions (c :: rest) =
      [HAction.invokeHandler c, HAction.stopChannel Code.channel_stopped] := by
  simp [protocolCompletions, forwardAll, Barrier.fire, forwardAll_fired,
    headers_complete]

/-- C4: a short batch (fewer than `max_get_headers` headers) that merges
without completing the table makes the protocol signal `operation_failed`
and drop the headers subscription. -/
theorem short_batch_operation_failed (ec : Code) (msg : List Header)
    (t : HeaderList) (hec : ec = Code.success)
    (hmerge : (t.merge msg).1 = true)
    (hcomp : (t.merge msg).2.complete = false)
    (hlen : msg.length < max_get_headers) :
    (handle_receive_headers false ec msg t).completed
        = some Code.operation_failed ∧
    (handle_receive_headers false ec msg t).resubscribe = false := by
  subst hec
  simp [handle_receive_headers, hmerge, hcomp, hlen]

/-- C4 (witness): a linking batch of one header against a table of capacity
5000 merges, does not complete, and terminates with `operation_failed`. -/
theorem short_batch_operation_failed_witness :
    (handle_receive_headers false Code.success [⟨10, 11⟩]
        ⟨0, 10, 999, 5000, []⟩).completed = some Code.operation_failed ∧
    (handle_receive_headers false Code.success [⟨10, 11⟩]
        ⟨0, 10, 999, 5000, []⟩).resubscribe = false :=
  short_batch_operation_failed Code.success [⟨10, 11⟩] ⟨0, 10, 999, 5000, []⟩
    rfl (by decide) (by decide) (by decide)

/-- C5: `handle_receive_headers` keeps the subscription (returns true)
exactly in the non-terminal case — not stopped, no transport error,
successful merge, table not complete, full-size batch — and its return
value coincides with whether it re-sent `get_headers`. -/
theorem receive_headers_resubscribe_iff (stopped : Bool) (ec : Code)
    (msg : List Header) (t : HeaderList) :
    ((handle_receive_headers stopped ec msg t).resubscribe = true ↔
      (stopped = false ∧ ec = Code.success ∧ (t.merge msg).1 = true ∧
        (t.merge msg).2.complete = false ∧ max_get_headers ≤ msg.length)) ∧
    (handle_receive_headers stopped ec msg t).sent_get_headers =
      (handle_receive_headers stopped ec msg t).resubscribe := by
  cases stopped with
  | true => simp [handle_receive_headers]
  | false =>
    by_cases hec : ec = Code.success
    · subst hec
      cases hmerge : (t.merge msg).1 with
      | false => simp [handle_receive_headers, hmerge]
      | true =>
        cases hcomp : (t.merge msg).2.complete with
        | true => simp [handle_receive_headers, hmerge, hcomp]
        | false =>
          by_cases hlen : msg.length < max_get_headers
          · simp [handle_receive_headers, hmerge, hcomp, hlen]
          · simp [handle_receive_headers, hmerge, hcomp, hlen]
            omega
    · simp [handle_receive_headers, hec]

/-- C6: a reorganization delivered without error pushes
`fork_point + len(new_blocks)` to the handshake layer, re-subscribes for
the next reorganization, and broadcasts one inventory message carrying a
block-type vector with each new block's header hash, in chain order. -/
theorem reorganize_actions (ec : Code) (fork_point : Nat)
    (new_blocks : List Header) (hec : ec = Code.success)
    (hbound : fork_point + new_blocks.length < w32) :
    set_start_height ec fork_point new_blocks =
      [SessAction.setStartHeight (fork_point + new_blocks.length),
       SessAction.subscribeReorganize,
       SessAction.broadcast
         (new_blocks.map fun b => (InvType.block, b.self))] := by
  subst hec
  simp [set_start_height, Nat.mod_eq_of_lt hbound]

/-- C6 (witness): the spec's scenario E — fork point 100 with two new
blocks pushes height 102 and broadcasts their two hashes in order. -/
theorem reorganize_actions_witness :
    set_start_height Code.success 100 [⟨1, 2⟩, ⟨2, 3⟩] =
      [SessAction.setStartHeight 102,
       SessAction.subscribeReorganize,
       SessAction.broadcast [(InvType.block, 2), (InvType.block, 3)]] := by
  have h := reorganize_actions Code.success 100 [⟨1, 2⟩, ⟨2, 3⟩] rfl
    (by norm_num [w32])
  simpa using h

/-- C7 (counterexample): a no-error reorganization with no new blocks
still performs a broadcast — of an inventory message with an empty vector
list — so "no broadcast is produced" fails. -/
theorem empty_reorg_counterexample :
    SessAction.broadcast [] ∈ set_start_height Code.success 100 [] := by
  decide

/-- C7 (amended): a no-error reorganization with empty `new_blocks` still
broadcasts one inventory message, but that message carries no inventory
vectors (no block hashes reach the peers in it). -/
theorem empty_reorg_broadcasts_empty (fork_point : Nat)
    (h : fork_point < w32) :
    set_start_height Code.success fork_point [] =
      [SessAction.setStartHeight fork_point,
       SessAction.subscribeReorganize,
       SessAction.broadcast []] := by
  simp [set_start_height, Nat.mod_eq_of_lt h]

/-- C7 (witness): the amended statement at fork point 100. -/
theorem empty_reorg_broadcasts_empty_witness :
    set_start_height Code.success 100 [] =
      [SessAction.setStartHeight 100,
       SessAction.subscribeReorganize,
       SessAction.broadcast []] :=
  empty_reorg_broadcasts_empty 100 (by norm_num [w32])

/-- C8 (counterexample): a `channel_timeout` tick delivered while the
protocol is stopped is not a no-op: `handle_event` has no `stopped()` gate,
so the tick still changes state by advancing `current_second_` from 5 to
10. -/
theorem stopped_tick_counterexample :
    (handle_event Code.channel_timeout
        ⟨⟨0, 7, 99, 3, []⟩, 5, 0, 0, true⟩).1 ≠
      (⟨⟨0, 7, 99, 3, []⟩, 5, 0, 0, true⟩ : ProtoState) ∧
    (handle_event Code.channel_timeout
        ⟨⟨0, 7, 99, 3, []⟩, 5, 0, 0, true⟩).1.current_second = 10 := by
  constructor
  · decide
  · decide

/-- C8 (amended): `handle_event` ignores the `stopped()` predicate — it
behaves identically whether or not the protocol has stopped, a normal tick
still advancing `elapsed_seconds` and invoking the completion barrier; a
tick after a terminal transition invokes no user completion only because
the one-shot barrier has already fired and discards every later code. -/
theorem tick_after_stop_barrier (s : ProtoState) (ec : Code) :
    (handle_event ec { s with stopped := true }).2 =
      (handle_event ec { s with stopped := false }).2 ∧
    (handle_event ec { s with stopped := true }).1.current_second =
      (handle_event ec { s with stopped := false }).1.current_second ∧
    (∀ c, Barrier.fire ⟨true⟩ c = (⟨true⟩, none)) := by
  refine ⟨?_, ?_, fun c => rfl⟩ <;>
    by_cases h1 : ec = Code.channel_stopped <;>
      by_cases h2 : ec ≠ Code.success ∧ ec ≠ Code.channel_timeout <;>
        simp [handle_event, tick, rate, h1, h2] <;>
          split <;> rfl

/-- C9: a `new_tx_inventory(hash, channel)` task queries the mempool for
exactly that hash and sends a `get_data` with a single transaction-type
vector carrying the hash if and only if the mempool reported it absent;
when the mempool has it, nothing is sent. -/
theorem tx_inventory_getdata_iff (mempool_has : Bool) (h : Hash) :
    (new_tx_inventory mempool_has h).queried = h ∧
    ((new_tx_inventory mempool_has h).sent
        = some [(InvType.transaction, h)] ↔ mempool_has = false) ∧
    ((new_tx_inventory mempool_has h).sent = none ↔ mempool_has = true) := by
  cases mempool_has <;> simp [new_tx_inventory, request_tx_data]

/-- A run of all-success new-channel notifications keeps the subscription
chain alive: each handled event re-subscribes for the next. -/
theorem handled_success_chain :
    ∀ (pre tail : List Code), (∀ x ∈ pre, x = Code.success) →
      handledChannelEvents (pre ++ tail) = pre ++ handledChannelEvents tail
  | [], _, _ => rfl
  | c :: rest, tail, hpre => by
    have hc : c = Code.success := hpre c (by simp)
    have hrest : ∀ x ∈ rest, x = Code.success := fun x hx =>
      hpre x (by simp [hx])
    subst hc
    have hmem : SessAction.subscribeChannel ∈ new_channel Code.success := by
      decide
    simp [handledChannelEvents, hmem, handled_success_chain rest tail hrest]

/-- C10: an errored new-channel notification makes `new_channel` return
without subscribing anything, and since only the success path re-subscribes,
the first errored notification is the last one the session ever handles:
everything after it in the notification stream goes unhandled. -/
theorem errored_channel_chain_terminates (pre : List Code) (e : Code)
    (post : List Code) (hpre : ∀ x ∈ pre, x = Code.success)
    (he : e ≠ Code.success) :
    new_channel e = [] ∧
    handledChannelEvents (pre ++ e :: post) = pre ++ [e] := by
  have hnc : new_channel e = [] := by simp [new_channel, he]
  refine ⟨hnc, ?_⟩
  rw [handled_success_chain pre (e :: post) hpre]
  have hmem : SessAction.subscribeChannel ∉ new_channel e := by
    simp [hnc]
  simp [handledChannelEvents, hmem]

/-- C10 (witness): after one successful channel, a `channel_stopped`
notification ends the chain; the two later notifications are never
handled. -/
theorem errored_channel_chain_terminates_witness :
    new_channel Code.channel_stopped = [] ∧
    handledChannelEvents ([Code.success] ++ Code.channel_stopped ::
        [Code.success, Code.success]) = [Code.success] ++ [Code.channel_stopped] :=
  errored_channel_chain_terminates [Code.success] Code.channel_stopped
    [Code.success, Code.success] (by decide) (by decide)

end LibbitcoinNode
